import Mathlib

/-!
Shallow embedding of the fcli provider layer (src/providers/base_provider.py,
debian.py, gentoo.py, opensuse.py, void.py).

External process invocations are modelled by their observable outcome
(return flag, captured stdout, or an operator interrupt), supplied as
parameters; each provider operation returns the flag the Python code would
return together with the list of external commands it would have invoked,
in order.  Python string operations used by the parsers are reimplemented
on `List Char` with Python semantics.
-/

/-- Python whitespace, the character class used by str.strip(). -/
def isPyWS (c : Char) : Bool :=
  c = ' ' || c = '\t' || c = '\n' || c = '\r' || c = '\x0b' || c = '\x0c'

/-- str.strip() on the character list: drop whitespace from both ends. -/
def stripChars (l : List Char) : List Char :=
  ((l.dropWhile isPyWS).reverse.dropWhile isPyWS).reverse

/-- str.split(sep) for a one-character separator, Python semantics:
empty pieces are kept and "" splits to [""]. -/
def splitChar (c : Char) : List Char → List (List Char)
  | [] => [[]]
  | x :: xs =>
    match splitChar c xs with
    | [] => [[]]
    | h :: t => if x = c then [] :: h :: t else (x :: h) :: t

/-- sep.join analogue on character lists. -/
def joinChar (c : Char) : List (List Char) → List Char
  | [] => []
  | [l] => l
  | l :: ls => l ++ c :: joinChar c ls

def pyStrip (s : String) : String := ⟨stripChars s.data⟩

def pySplitOn (s : String) (c : Char) : List String :=
  (splitChar c s.data).map (fun l => ⟨l⟩)

/-- Python `sub in s` substring test, on character lists. -/
def hasSub (pat : List Char) : List Char → Bool
  | [] => pat.isEmpty
  | x :: xs => pat.isPrefixOf (x :: xs) || hasSub pat xs

def pyContains (s pat : String) : Bool := hasSub pat.data s.data

/-- str.rsplit(sep, 2): at most two splits, taken from the right. -/
def rsplit2Chars (c : Char) (l : List Char) : List (List Char) :=
  let parts := splitChar c l
  if parts.length ≤ 3 then parts
  else joinChar c (parts.take (parts.length - 2)) :: parts.drop (parts.length - 2)

def pyRsplit2 (s : String) (c : Char) : List String :=
  (rsplit2Chars c s.data).map (fun l => ⟨l⟩)

/-- The call pkg.replace("==", "-") in void.Provider.install: leftmost,
non-overlapping replacement of "==" by "-". -/
def replaceEqEq : List Char → List Char
  | x :: y :: rest =>
    if x = '=' ∧ y = '=' then '-' :: replaceEqEq rest
    else x :: replaceEqEq (y :: rest)
  | l => l

/-- The call .replace("=", "") in void.Provider.install: drop every '='. -/
def removeEq : List Char → List Char
  | [] => []
  | x :: rest => if x = '=' then removeEq rest else x :: removeEq rest

/-- Python dict assignment d[k] = v: replaces the value in place if the key
exists, else appends (insertion order preserved). -/
def pyDictInsert (m : List (String × String)) (k v : String) :
    List (String × String) :=
  if m.any (fun p => p.1 == k) then
    m.map (fun p => if p.1 == k then (k, v) else p)
  else m ++ [(k, v)]

/-- Outcome of one external process invocation, as observed by the Python
helper that wraps it: normal exit, non-zero exit (CalledProcessError),
missing binary (FileNotFoundError), or operator interrupt
(KeyboardInterrupt). -/
inductive CmdOutcome
  | success
  | cmdFailed
  | notFound
  | interrupt

/-- base_provider._run_cmd_interactive: catches CalledProcessError,
FileNotFoundError and KeyboardInterrupt, so every outcome becomes a clean
Bool return (.ok); no exception escapes. -/
def baseRunCmdInteractive : CmdOutcome → Except Unit Bool
  | .success => .ok true
  | .cmdFailed => .ok false
  | .notFound => .ok false
  | .interrupt => .ok false

/-- debian._run_cmd_interactive: same handler set as the base helper
(CalledProcessError, FileNotFoundError, KeyboardInterrupt all caught). -/
def debianRunCmdInteractive : CmdOutcome → Except Unit Bool
  | .success => .ok true
  | .cmdFailed => .ok false
  | .notFound => .ok false
  | .interrupt => .ok false

/-- gentoo.run_cmd: catches only CalledProcessError and FileNotFoundError;
a KeyboardInterrupt escapes the helper (modelled as .error). -/
def gentooRunCmd : CmdOutcome → Except Unit Bool
  | .success => .ok true
  | .cmdFailed => .ok false
  | .notFound => .ok false
  | .interrupt => .error ()

/-- void.run_cmd: catches only CalledProcessError and FileNotFoundError;
a KeyboardInterrupt escapes the helper. -/
def voidRunCmd : CmdOutcome → Except Unit Bool
  | .success => .ok true
  | .cmdFailed => .ok false
  | .notFound => .ok false
  | .interrupt => .error ()

/-- opensuse.run_cmd: catches only CalledProcessError and
FileNotFoundError; a KeyboardInterrupt escapes the helper. -/
def opensuseRunCmd : CmdOutcome → Except Unit Bool
  | .success => .ok true
  | .cmdFailed => .ok false
  | .notFound => .ok false
  | .interrupt => .error ()

/-- Result of one provider operation: the Bool the Python method returns
and the external commands it invoked, in order. -/
structure OpResult where
  ok : Bool
  trace : List (List String)

/-- debian.Provider.install: one `sudo apt install -y <pkg>` per package;
a per-package failure is accumulated, the flag is the conjunction.
`r pkg` is the outcome of that package's apt invocation. -/
def debianInstall (packages : List String) (r : String → Bool) : OpResult :=
  { ok := packages.all r
  , trace := packages.map (fun p => ["sudo", "apt", "install", "-y", p]) }

/-- void.Provider.install's per-package name rewrite:
pkg.replace("==", "-").replace("=", ""). -/
def voidInstallName (pkg : String) : String :=
  ⟨removeEq (replaceEqEq pkg.data)⟩

/-- void.Provider.install: one `sudo xbps-install -y <name>` per package on
the rewritten name; failures accumulate. -/
def voidInstall (packages : List String) (r : String → Bool) : OpResult :=
  { ok := packages.all (fun p => r (voidInstallName p))
  , trace := packages.map (fun p => ["sudo", "xbps-install", "-y", voidInstallName p]) }

/-- gentoo.Provider.install: a single batched emerge invocation, issued
even when the package list is empty; the flag is that command's outcome. -/
def gentooInstall (packages : List String) (b : Bool) : OpResult :=
  { ok := b, trace := [["sudo", "emerge", "--noreplace"] ++ packages] }

/-- opensuse.Provider.install: a single batched zypper invocation, issued
even when the package list is empty. -/
def opensuseInstall (packages : List String) (b : Bool) : OpResult :=
  { ok := b, trace := [["sudo", "zypper", "install", "--non-interactive"] ++ packages] }

/-- Result of debian.Provider.update: returned flag, commands in order,
and the final hold set. -/
structure UpdateResult where
  result : Bool
  trace : List (List String)
  holds : List String

def aptHoldCmd (ps : List String) : List String := ["sudo", "apt-mark", "hold"] ++ ps

def aptUnholdCmd (ps : List String) : List String := ["sudo", "apt-mark", "unhold"] ++ ps

def aptUpdateCmd : List String := ["sudo", "apt", "update"]

def aptUpgradeCmd : List String := ["sudo", "apt", "upgrade", "-y"]

/-- debian.Provider.update.  bHold, bRefresh, bUpgrade, bUnhold are the
Bool results of the four _run_cmd_interactive calls (interrupts already
converted to False by the helper).  Command effects on the hold set are
modelled atomically: apt-mark hold/unhold changes the set only when the
command succeeds.  The source discards the `apt update` result
(debian.py line 82), so bRefresh feeds neither the flag nor the flow. -/
def debianUpdate (ignore holds0 : List String)
    (bHold _bRefresh bUpgrade bUnhold : Bool) : UpdateResult :=
  if ignore.isEmpty then
    { result := bUpgrade
    , trace := [aptUpdateCmd, aptUpgradeCmd]
    , holds := holds0 }
  else if bHold = false then
    { result := false, trace := [aptHoldCmd ignore], holds := holds0 }
  else
    if bUnhold then
      { result := bUpgrade
      , trace := [aptHoldCmd ignore, aptUpdateCmd, aptUpgradeCmd, aptUnholdCmd ignore]
      , holds := (holds0 ++ ignore).filter (fun p => !(ignore.contains p)) }
    else
      { result := false
      , trace := [aptHoldCmd ignore, aptUpdateCmd, aptUpgradeCmd, aptUnholdCmd ignore]
      , holds := holds0 ++ ignore }

/-- gentoo.Provider.update: a fixed world upgrade.  The method signature
takes no ignore list, although the base class declares
update(self, ignore_list). -/
def gentooUpdate (b : Bool) : OpResult :=
  { ok := b, trace := [["sudo", "emerge", "-auDN", "@world"]] }

/-- void.Provider.update: one combined sync-and-upgrade command carrying a
per-name --exclude flag for each ignored package. -/
def voidUpdate (ignore : List String) (b : Bool) : OpResult :=
  { ok := b
  , trace := [["sudo", "xbps-install", "-Syu"] ++ ignore.map (fun p => "--exclude=" ++ p)] }

/-- Python string less-than: lexicographic on code points, a strict prefix
is smaller. -/
def pyStrLt : List Char → List Char → Bool
  | [], [] => false
  | [], _ :: _ => true
  | _ :: _, [] => false
  | x :: xs, y :: ys => if x < y then true else if y < x then false else pyStrLt xs ys

/-- Python string comparison (lexicographic on code points) mapped onto the
1 / 0 / 2 encoding used by compare_versions. -/
def lexComparePy (v1 v2 : String) : Nat :=
  if pyStrLt v2.data v1.data then 1
  else if pyStrLt v1.data v2.data then 2
  else 0

/-- debian.Provider.compare_versions: when dpkg was found at construction
time the two `dpkg --compare-versions` probes decide; otherwise the method
returns 0 immediately.  dpkgGt/dpkgLt model the probes' exit-code-zero
tests for the given pair. -/
def debianCompareVersions (canCompare : Bool)
    (dpkgGt dpkgLt : String → String → Bool) (v1 v2 : String) : Nat :=
  if canCompare = false then 0
  else if dpkgGt v1 v2 then 1
  else if dpkgLt v1 v2 then 2
  else 0

/-- void.Provider.compare_versions: the xbps-uhelper return code decides
when the tool is present (1 greater, 2 less, else equal); on
FileNotFoundError the method falls back to plain string comparison. -/
def voidCompareVersions (toolPresent : Bool) (rc : Nat) (v1 v2 : String) : Nat :=
  if toolPresent then
    if rc = 1 then 1 else if rc = 2 then 2 else 0
  else lexComparePy v1 v2

/-- debian.Provider.get_installed_packages applied to the captured
dpkg-query stdout: set(stdout.strip().split('\n')), modelled as the list
of pieces (membership is the set view). -/
def debianGetInstalled (raw : String) : List String :=
  pySplitOn (pyStrip raw) '\n'

/-- One loop step of debian.Provider.get_installed_packages_with_versions:
a line is used only if nonempty and containing a tab, and only if it
splits into exactly name and version (otherwise the unpack raises
ValueError, which is caught and the record skipped). -/
def debianVersStep (m : List (String × String)) (line : String) :
    List (String × String) :=
  if line != "" && pyContains line "\t" then
    match pySplitOn line '\t' with
    | [n, v] => pyDictInsert m n v
    | _ => m
  else m

/-- debian.Provider.get_installed_packages_with_versions on the captured
stdout. -/
def debianWithVersions (raw : String) : List (String × String) :=
  ((pySplitOn (pyStrip raw) '\n').foldl debianVersStep [])

/-- One record per line followed by a newline, the shape dpkg-query
produces for a format string ending in a newline.  Models the external
query tool's output for a given package database. -/
def renderLines (lines : List (List Char)) : List Char :=
  lines.foldr (fun l acc => l ++ '\n' :: acc) []

/-- dpkg-query -W -f binary-package-newline, rendered from a database of
(name, version) records. -/
def dpkgPlainOut (db : List (String × String)) : String :=
  ⟨renderLines (db.map (fun p => p.1.data))⟩

/-- dpkg-query -W -f binary-package-tab-version-newline, rendered from the
same database. -/
def dpkgVersOut (db : List (String × String)) : String :=
  ⟨renderLines (db.map (fun p => p.1.data ++ '\t' :: p.2.data))⟩

/-- Hygiene of one dpkg name or version token: nonempty and free of
Python whitespace (hence of the newline and tab separators). -/
def tokOk (s : String) : Bool :=
  !s.data.isEmpty && s.data.all (fun c => !(isPyWS c))

/-- Hygiene of a package database: nonempty, every name and version a
clean token. -/
def dbWf (db : List (String × String)) : Bool :=
  !db.isEmpty && db.all (fun p => tokOk p.1 && tokOk p.2)

/-- Body of void.Provider.get_installed_packages over the split lines.
line.split(' ')[1] raises IndexError on a spaceless line, and IndexError
is not in the caught tuple (only CalledProcessError and FileNotFoundError
are), so the whole query aborts: modelled as .error. -/
def voidInstalledLines : List String → Except Unit (List String)
  | [] => .ok []
  | line :: rest =>
    if line != "" then
      match (pySplitOn line ' ')[1]? with
      | none => .error ()
      | some pkgFull =>
        match voidInstalledLines rest with
        | .error e => .error e
        | .ok s => .ok ((pyRsplit2 pkgFull '-').headD "" :: s)
    else voidInstalledLines rest

/-- void.Provider.get_installed_packages on the captured stdout. -/
def voidGetInstalled (raw : String) : Except Unit (List String) :=
  voidInstalledLines (pySplitOn (pyStrip raw) '\n')

/-- One loop step of void.Provider.get_installed_packages_with_versions:
the per-line try/except (ValueError, IndexError) skips a malformed
record, so the two indexings are guarded. -/
def voidVersLine (m : List (String × String)) (line : String) :
    List (String × String) :=
  if line != "" then
    match (pySplitOn line ' ')[1]? with
    | none => m
    | some pkgFull =>
      match (pyRsplit2 pkgFull '-')[1]? with
      | none => m
      | some v => pyDictInsert m ((pyRsplit2 pkgFull '-').headD "") v
  else m

/-- void.Provider.get_installed_packages_with_versions on the captured
stdout. -/
def voidWithVersions (raw : String) : List (String × String) :=
  ((pySplitOn (pyStrip raw) '\n').foldl voidVersLine [])

/-- BaseProvider._unsupported: prints a warning and returns False without
invoking any external command. -/
def unsupportedOp : OpResult := { ok := false, trace := [] }

/-- BaseProvider.install_aur default. -/
def baseInstallAur (_packages : List String) : OpResult := unsupportedOp

/-- BaseProvider.install_copr default. -/
def baseInstallCopr (_coprMap : List (String × List String)) : OpResult := unsupportedOp

/-- BaseProvider.install_ppa default. -/
def baseInstallPpa (_ppaMap : List (String × List String)) : OpResult := unsupportedOp

/-- BaseProvider.install_obs default. -/
def baseInstallObs (_obsMap : List (String × List String)) : OpResult := unsupportedOp

/-- BaseProvider.install_overlay default. -/
def baseInstallOverlay (_overlayMap : List (String × List String)) : OpResult := unsupportedOp

/-- BaseProvider.install_src default. -/
def baseInstallSrc (_packages : List String) : OpResult := unsupportedOp

/-- Accumulator of the per-source loop in debian.Provider.install_ppa. -/
structure PpaState where
  allOk : Bool
  pkgs : List String
  needsUpdate : Bool
  trace : List (List String)

def ppaInit : PpaState :=
  { allOk := true, pkgs := [], needsUpdate := false, trace := [] }

/-- The per-source loop of debian.Provider.install_ppa.  `reg ppa` is the
(returncode, stdout) of `sudo add-apt-repository -y <ppa>`.  A failed
registration marks the batch failed and skips that source's packages; a
successful one appends its packages and, unless stdout reports the source
as already enabled, requires a metadata refresh. -/
def ppaLoop (reg : String → Nat × String) :
    List (String × List String) → PpaState → PpaState
  | [], st => st
  | (ppa, packages) :: rest, st =>
    let rc := (reg ppa).1
    let out := (reg ppa).2
    let st1 := { st with trace := st.trace ++ [["sudo", "add-apt-repository", "-y", ppa]] }
    if rc != 0 then
      ppaLoop reg rest { st1 with allOk := false }
    else
      let st2 := { st1 with pkgs := st1.pkgs ++ packages }
      if !(pyContains out "already-enabled") && !(pyContains out "already enabled") then
        ppaLoop reg rest { st2 with needsUpdate := true }
      else
        ppaLoop reg rest st2

/-- Result of debian.Provider.install_ppa: returned flag, commands,
the argument list of the single primary-install call if one was made,
and how many such calls were made. -/
structure PpaResult where
  ok : Bool
  trace : List (List String)
  installArgs : Option (List String)
  installCalls : Nat

/-- debian.Provider.install_ppa.  Preflight on add-apt-repository and
dirmngr, then the per-source loop, then one conditional `apt update`
(fatal on failure: the method returns False before installing), then one
self.install call on the accumulated package list if it is nonempty. -/
def debianInstallPpa (canAddPpa canImportKeys : Bool)
    (ppaMap : List (String × List String)) (reg : String → Nat × String)
    (bRefresh : Bool) (instOk : String → Bool) : PpaResult :=
  if canAddPpa = false then
    { ok := false, trace := [], installArgs := none, installCalls := 0 }
  else if canImportKeys = false then
    { ok := false, trace := [], installArgs := none, installCalls := 0 }
  else
    let st := ppaLoop reg ppaMap ppaInit
    if st.needsUpdate && !bRefresh then
      { ok := false, trace := st.trace ++ [aptUpdateCmd]
      , installArgs := none, installCalls := 0 }
    else
      let t1 := if st.needsUpdate then st.trace ++ [aptUpdateCmd] else st.trace
      if st.pkgs.isEmpty then
        { ok := st.allOk, trace := t1, installArgs := none, installCalls := 0 }
      else
        { ok := st.allOk && (debianInstall st.pkgs instOk).ok
        , trace := t1 ++ (debianInstall st.pkgs instOk).trace
        , installArgs := some st.pkgs
        , installCalls := 1 }

/-- Number of `apt update` invocations in a trace. -/
def aptUpdateCount (t : List (List String)) : Nat :=
  t.countP (fun c => decide (c = aptUpdateCmd))

theorem removeEq_contains_eq_false (l : List Char) :
    (removeEq l).contains '=' = false := by
  induction l with
  | nil => rfl
  | cons x xs ih =>
    by_cases hx : x = '='
    · subst hx
      exact ih
    · simp only [removeEq, if_neg hx, List.contains_cons, ih, Bool.or_false]
      simp only [beq_eq_false_iff_ne]
      exact fun h => hx h.symm

/-- C4 (amended): Void delegates to the xbps-uhelper return code when the
tool is present and falls back to Python lexical string comparison when it
is absent; Debian delegates to the dpkg probes when dpkg is present but
returns the constant 0 (EQUAL) when it is absent. -/
theorem c4_compare_delegation (rc : Nat) (v1 v2 : String)
    (dpkgGt dpkgLt : String → String → Bool) :
    voidCompareVersions true rc v1 v2 = (if rc = 1 then 1 else if rc = 2 then 2 else 0)
    ∧ voidCompareVersions false rc v1 v2 = lexComparePy v1 v2
    ∧ debianCompareVersions true dpkgGt dpkgLt v1 v2
        = (if dpkgGt v1 v2 then 1 else if dpkgLt v1 v2 then 2 else 0)
    ∧ debianCompareVersions false dpkgGt dpkgLt v1 v2 = 0 :=
  ⟨rfl, rfl, rfl, rfl⟩

/-- C4 counterexample: with dpkg unavailable the Debian comparator answers
0 (EQUAL) on ("2", "1"), whereas the lexical comparison answers 1
(GREATER): the claimed lexical fallback for every provider is false. -/
theorem c4_counterexample :
    debianCompareVersions false (fun _ _ => false) (fun _ _ => false) "2" "1" = 0
    ∧ lexComparePy "2" "1" = 1 :=
  ⟨rfl, rfl⟩

/-- C7: every default (non-overridden) secondary-source operation returns
failure and invokes no external command. -/
theorem c7_unsupported_no_invocation (packages : List String)
    (m : List (String × List String)) :
    (baseInstallAur packages).ok = false ∧ (baseInstallAur packages).trace = []
    ∧ (baseInstallCopr m).ok = false ∧ (baseInstallCopr m).trace = []
    ∧ (baseInstallPpa m).ok = false ∧ (baseInstallPpa m).trace = []
    ∧ (baseInstallObs m).ok = false ∧ (baseInstallObs m).trace = []
    ∧ (baseInstallOverlay m).ok = false ∧ (baseInstallOverlay m).trace = []
    ∧ (baseInstallSrc packages).ok = false ∧ (baseInstallSrc packages).trace = [] :=
  ⟨rfl, rfl, rfl, rfl, rfl, rfl, rfl, rfl, rfl, rfl, rfl, rfl⟩

/-- C8 (amended): on the empty package list the Debian and Void installers
invoke nothing and return success, while the Gentoo and openSUSE
installers still issue their single batched command (with no package
arguments) and return that command's outcome. -/
theorem c8_empty_install (r : String → Bool) (b : Bool) :
    (debianInstall [] r).ok = true ∧ (debianInstall [] r).trace = []
    ∧ (voidInstall [] r).ok = true ∧ (voidInstall [] r).trace = []
    ∧ (gentooInstall [] b).ok = b
    ∧ (gentooInstall [] b).trace = [["sudo", "emerge", "--noreplace"]]
    ∧ (opensuseInstall [] b).ok = b
    ∧ (opensuseInstall [] b).trace = [["sudo", "zypper", "install", "--non-interactive"]] :=
  ⟨rfl, rfl, rfl, rfl, rfl, rfl, rfl, rfl⟩

/-- C8 counterexample: the Gentoo provider's install on the empty list
still invokes `sudo emerge --noreplace` and, when that command fails,
returns False — not the claimed no-invocation success. -/
theorem c8_counterexample :
    (gentooInstall [] false).trace = [["sudo", "emerge", "--noreplace"]]
    ∧ (gentooInstall [] false).ok = false :=
  ⟨rfl, rfl⟩

/-- C9 (amended): the base-provider and Debian interactive helpers catch
an operator interrupt and convert it into a clean False return, while the
Gentoo, Void and openSUSE helpers catch only command failure and missing
command, so an interrupt escapes them. -/
theorem c9_interrupt_handling :
    baseRunCmdInteractive .interrupt = .ok false
    ∧ debianRunCmdInteractive .interrupt = .ok false
    ∧ gentooRunCmd .interrupt = .error ()
    ∧ voidRunCmd .interrupt = .error ()
    ∧ opensuseRunCmd .interrupt = .error ()
    ∧ baseRunCmdInteractive .success = .ok true
    ∧ gentooRunCmd .cmdFailed = .ok false
    ∧ voidRunCmd .notFound = .ok false :=
  ⟨rfl, rfl, rfl, rfl, rfl, rfl, rfl, rfl⟩

/-- C9 counterexample: an operator interrupt during a Gentoo or Void
interactive invocation escapes the helper instead of becoming a clean
failure return. -/
theorem c9_counterexample :
    gentooRunCmd .interrupt = .error () ∧ voidRunCmd .interrupt = .error () :=
  ⟨rfl, rfl⟩

/-- C10: the Void installer requests each package under the name obtained
by replacing every "==" with "-" and deleting every remaining '='; in
particular "pkg=1.2" is requested as "pkg1.2". -/
theorem c10_void_install_name (packages : List String) (r : String → Bool)
    (p : String) :
    (voidInstall packages r).trace
      = packages.map (fun q => ["sudo", "xbps-install", "-y", voidInstallName q])
    ∧ (voidInstallName p).data.contains '=' = false
    ∧ voidInstallName "pkg=1.2" = "pkg1.2"
    ∧ voidInstallName "a==b-c=d" = "a-b-cd" :=
  ⟨rfl, removeEq_contains_eq_false _, rfl, rfl⟩

/-- C6: on xbps-query output whose second line has no space, the Void
plain query aborts with the uncaught IndexError while the versions query
skips the malformed line; the Debian versions query also skips lines
without a tab or with too many tabs. -/
theorem c6_malformed_lines :
    voidGetInstalled "ii vim-9.0_1 x\nbad" = .error ()
    ∧ voidWithVersions "ii vim-9.0_1 x\nbad" = [("vim", "9.0_1")]
    ∧ debianWithVersions "a\tb\nbad\nc\t1\t2" = [("a", "b")] :=
  ⟨rfl, rfl, rfl⟩

theorem aptUpdateCount_install (pkgs : List String) (r : String → Bool) :
    aptUpdateCount (debianInstall pkgs r).trace = 0 := by
  simp only [aptUpdateCount, debianInstall, List.countP_eq_zero, List.mem_map,
    aptUpdateCmd]
  rintro c ⟨p, _, rfl⟩
  simp

/-- C1 (code evaluated at the divergence): the Debian update with the hold
and unhold commands succeeding runs hold, refresh, upgrade, unhold in that
order whatever the upgrade outcome, and its final hold set is the pre-call
set minus the ignore names; the Gentoo update, called through the same
contract, issues only the fixed world upgrade and touches no holds or
excludes for any ignore list. -/
theorem c1_update_holds (ignore holds0 : List String) (bR bUp : Bool) :
    (∀ p, p ∈ (debianUpdate ignore holds0 true bR bUp true).holds
        ↔ (p ∈ holds0 ∧ ignore.contains p = false))
    ∧ (debianUpdate ignore holds0 true bR bUp true).trace
        = (if ignore.isEmpty then [aptUpdateCmd, aptUpgradeCmd]
           else [aptHoldCmd ignore, aptUpdateCmd, aptUpgradeCmd, aptUnholdCmd ignore])
    ∧ (∀ b, (gentooUpdate b).trace = [["sudo", "emerge", "-auDN", "@world"]]) := by
  refine ⟨?_, ?_, fun b => rfl⟩
  · intro p
    by_cases hig : ignore.isEmpty
    · have he : ignore = [] := List.isEmpty_iff.mp hig
      subst he
      simp [debianUpdate]
    · have hig' : ignore.isEmpty = false := by
        cases h : ignore.isEmpty
        · rfl
        · exact absurd h hig
      simp only [debianUpdate, hig', Bool.false_eq_true, if_false]
      rw [if_neg (by simp)]; rw [if_pos trivial]
      simp only [List.mem_filter, List.mem_append, List.contains, Bool.not_eq_true']
      constructor
      · rintro ⟨h | h, hc⟩
        · exact ⟨h, hc⟩
        · rw [List.elem_iff.mpr h] at hc
          simp at hc
      · rintro ⟨h, hc⟩
        exact ⟨Or.inl h, hc⟩
  · by_cases hig : ignore.isEmpty
    · have he : ignore = [] := List.isEmpty_iff.mp hig
      subst he
      simp [debianUpdate]
    · have hig' : ignore.isEmpty = false := by
        cases h : ignore.isEmpty
        · rfl
        · exact absurd h hig
      simp only [debianUpdate, hig', Bool.false_eq_true, if_false]
      rw [if_neg (by simp)]; rw [if_pos trivial]

theorem c1_witness :
    (debianUpdate ["foo", "bar"] ["baz"] true true false true).trace
      = (if (["foo", "bar"] : List String).isEmpty then [aptUpdateCmd, aptUpgradeCmd]
         else [aptHoldCmd ["foo", "bar"], aptUpdateCmd, aptUpgradeCmd,
               aptUnholdCmd ["foo", "bar"]]) :=
  (c1_update_holds ["foo", "bar"] ["baz"] true false).2.1

theorem ppaLoop_two_sources (p1 p2 : String) (l1 l2 : List String)
    (out1 out2 : String) (reg : String → Nat × String)
    (hr1 : reg p1 = (0, out1)) (hr2 : reg p2 = (0, out2))
    (h1 : pyContains out1 "already-enabled" = true
        ∨ pyContains out1 "already enabled" = true)
    (h2a : pyContains out2 "already-enabled" = false)
    (h2b : pyContains out2 "already enabled" = false) :
    ppaLoop reg [(p1, l1), (p2, l2)] ppaInit
      = { allOk := true, pkgs := l1 ++ l2, needsUpdate := true
        , trace := [["sudo", "add-apt-repository", "-y", p1],
                    ["sudo", "add-apt-repository", "-y", p2]] } := by
  have e1 : (!(pyContains out1 "already-enabled")
      && !(pyContains out1 "already enabled")) = false := by
    rcases h1 with h | h <;> simp [h]
  simp [ppaLoop, hr1, hr2, ppaInit, e1, h2a, h2b]

/-- C2 (amended): with one already-registered source and one newly added
source, install_ppa triggers exactly one metadata refresh overall (and
none when the already-registered source is alone), then installs the
concatenation of both sources' package lists — duplicates preserved, not
deduplicated — in a single call to the primary install operation. -/
theorem c2_ppa_single_refresh (p1 p2 : String) (l1 l2 : List String)
    (out1 out2 : String) (reg : String → Nat × String) (instOk : String → Bool)
    (hr1 : reg p1 = (0, out1)) (hr2 : reg p2 = (0, out2))
    (h1 : pyContains out1 "already-enabled" = true
        ∨ pyContains out1 "already enabled" = true)
    (h2a : pyContains out2 "already-enabled" = false)
    (h2b : pyContains out2 "already enabled" = false)
    (hpk : (l1 ++ l2).isEmpty = false) :
    aptUpdateCount (debianInstallPpa true true [(p1, l1), (p2, l2)] reg true instOk).trace = 1
    ∧ (debianInstallPpa true true [(p1, l1), (p2, l2)] reg true instOk).installCalls = 1
    ∧ (debianInstallPpa true true [(p1, l1), (p2, l2)] reg true instOk).installArgs
        = some (l1 ++ l2)
    ∧ aptUpdateCount (debianInstallPpa true true [(p1, l1)] reg true instOk).trace = 0 := by
  have hst := ppaLoop_two_sources p1 p2 l1 l2 out1 out2 reg hr1 hr2 h1 h2a h2b
  have e1 : (!(pyContains out1 "already-enabled")
      && !(pyContains out1 "already enabled")) = false := by
    rcases h1 with h | h <;> simp [h]
  have hst1 : ppaLoop reg [(p1, l1)] ppaInit
      = { allOk := true, pkgs := l1, needsUpdate := false
        , trace := [["sudo", "add-apt-repository", "-y", p1]] } := by
    simp [ppaLoop, hr1, ppaInit, e1]
  refine ⟨?_, ?_, ?_, ?_⟩
  · simp only [debianInstallPpa, hst, hpk, Bool.not_true, Bool.and_false,
      Bool.false_eq_true, if_false, Bool.true_and, if_true]
    simp only [aptUpdateCount, List.countP_append, List.countP_cons, List.countP_nil,
      aptUpdateCount_install]
    have hx : aptUpdateCount (debianInstall (l1 ++ l2) instOk).trace = 0 :=
      aptUpdateCount_install (l1 ++ l2) instOk
    simp only [aptUpdateCount] at hx
    simp [hx, aptUpdateCmd]
    intro a ha
    simp only [debianInstall, List.mem_map] at ha
    obtain ⟨p, _, rfl⟩ := ha
    simp
  · simp [debianInstallPpa, hst, hpk]
  · simp [debianInstallPpa, hst, hpk]
  · simp only [debianInstallPpa, hst1, Bool.false_and, Bool.false_eq_true, if_false]
    by_cases hl1 : l1.isEmpty
    · simp [hl1, aptUpdateCount, aptUpdateCmd]
    · have hl1' : l1.isEmpty = false := by
        cases h : l1.isEmpty
        · rfl
        · exact absurd h hl1
      have hx : aptUpdateCount (debianInstall l1 instOk).trace = 0 :=
        aptUpdateCount_install l1 instOk
      simp only [aptUpdateCount] at hx
      simp [hl1', aptUpdateCount, hx, aptUpdateCmd]
      intro a ha
      simp only [debianInstall, List.mem_map] at ha
      obtain ⟨p, _, rfl⟩ := ha
      simp

/-- C2 counterexample: two newly added sources both listing "pkg" make
install_ppa hand the primary installer the list ["pkg", "pkg"], which is
not the deduplicated set the claim describes. -/
theorem c2_counterexample :
    (debianInstallPpa true true [("ppa:a", ["pkg"]), ("ppa:b", ["pkg"])]
        (fun _ => (0, "")) true (fun _ => true)).installArgs = some ["pkg", "pkg"]
    ∧ (["pkg", "pkg"] : List String).dedup = ["pkg"] := by
  constructor
  · rfl
  · decide

theorem c2_witness :
    (debianInstallPpa true true [("ppa:old", ["a"]), ("ppa:new", ["b"])]
        (fun s => if s = "ppa:old" then (0, "PPA already enabled") else (0, "Added"))
        true (fun _ => true)).installArgs = some ["a", "b"] :=
  (c2_ppa_single_refresh "ppa:old" "ppa:new" ["a"] ["b"]
    "PPA already enabled" "Added"
    (fun s => if s = "ppa:old" then (0, "PPA already enabled") else (0, "Added"))
    (fun _ => true) (by decide) (by decide) (Or.inr (by decide))
    (by decide) (by decide) (by decide)).2.2.1

/-- C3 (amended): in install_ppa a failed metadata refresh aborts the
operation — no install call is made and the method returns False — while
in update the refresh outcome is discarded: the returned flag does not
depend on it. -/
theorem c3_refresh_fatality (ppaMap : List (String × List String))
    (reg : String → Nat × String) (instOk : String → Bool)
    (hneeds : (ppaLoop reg ppaMap ppaInit).needsUpdate = true) :
    ((debianInstallPpa true true ppaMap reg false instOk).ok = false
      ∧ (debianInstallPpa true true ppaMap reg false instOk).installCalls = 0
      ∧ (debianInstallPpa true true ppaMap reg false instOk).installArgs = none)
    ∧ (∀ ign h0 bH bUp bUn,
        (debianUpdate ign h0 bH true bUp bUn).result
          = (debianUpdate ign h0 bH false bUp bUn).result) := by
  constructor
  · simp [debianInstallPpa, hneeds]
  · intro ign h0 bH bUp bUn
    rfl

/-- C3 counterexample: in update with an empty ignore list, a failed
`apt update` (bRefresh = false) neither stops the upgrade step nor makes
the operation fail: the result is still True and the upgrade was run. -/
theorem c3_counterexample :
    (debianUpdate [] [] true false true true).result = true
    ∧ (debianUpdate [] [] true false true true).trace = [aptUpdateCmd, aptUpgradeCmd] :=
  ⟨rfl, rfl⟩

theorem c3_witness :
    (debianInstallPpa true true [("ppa:x", ["p"])] (fun _ => (0, "")) false
        (fun _ => true)).ok = false :=
  (c3_refresh_fatality [("ppa:x", ["p"])] (fun _ => (0, "")) (fun _ => true)
    (by decide)).1.1

theorem splitChar_ne_nil (c : Char) (l : List Char) : splitChar c l ≠ [] := by
  cases l with
  | nil => simp [splitChar]
  | cons x xs =>
    simp only [splitChar]
    split
    · simp
    · split <;> simp

theorem splitChar_no_sep (c : Char) (l : List Char) (h : c ∉ l) :
    splitChar c l = [l] := by
  induction l with
  | nil => rfl
  | cons x xs ih =>
    have hx : ¬x = c := fun he => h (he ▸ List.mem_cons_self x xs)
    have hxs : c ∉ xs := fun hm => h (List.mem_cons_of_mem x hm)
    simp only [splitChar, ih hxs]
    simp [hx]

theorem splitChar_sep_append (c : Char) (l r : List Char) (h : c ∉ l) :
    splitChar c (l ++ c :: r) = l :: splitChar c r := by
  induction l with
  | nil =>
    show splitChar c (c :: r) = [] :: splitChar c r
    simp only [splitChar]
    cases hs : splitChar c r with
    | nil => exact absurd hs (splitChar_ne_nil c r)
    | cons a t => simp
  | cons x xs ih =>
    have hx : ¬x = c := fun he => h (he ▸ List.mem_cons_self x xs)
    have hxs : c ∉ xs := fun hm => h (List.mem_cons_of_mem x hm)
    rw [show (x :: xs) ++ c :: r = x :: (xs ++ c :: r) from rfl]
    simp only [splitChar]
    rw [ih hxs]
    simp [hx]

theorem dropWhile_eq_self_of_head (p : Char → Bool) (l : List Char)
    (h : ∀ x, l.head? = some x → p x = false) : l.dropWhile p = l := by
  cases l with
  | nil => rfl
  | cons x xs =>
    rw [List.dropWhile_cons, h x rfl]
    simp

theorem head?_append_left (l m : List Char) (h : l ≠ []) :
    (l ++ m).head? = l.head? := by
  cases l with
  | nil => exact absurd rfl h
  | cons x xs => rfl

theorem getLast?_append_right (l m : List Char) (h : m ≠ []) :
    (l ++ m).getLast? = m.getLast? := by
  obtain ⟨y, hy⟩ : ∃ y, m.getLast? = some y := by
    cases m with
    | nil => exact absurd rfl h
    | cons a t => exact ⟨(a :: t).getLast (by simp), List.getLast?_eq_getLast _ _⟩
  rw [List.getLast?_append, hy]
  rfl

theorem mem_of_head? (l : List Char) (x : Char) (h : l.head? = some x) :
    x ∈ l := by
  cases l with
  | nil => simp at h
  | cons a t =>
    rw [show (a :: t).head? = some a from rfl] at h
    have hax : a = x := Option.some.inj h
    subst hax
    simp

theorem mem_of_getLast? (l : List Char) (x : Char) (h : l.getLast? = some x) :
    x ∈ l := by
  rw [← List.head?_reverse] at h
  have : x ∈ l.reverse := mem_of_head? l.reverse x h
  exact List.mem_reverse.mp this

theorem getLast?_cons_of_ne (x : Char) (t : List Char) (h : t ≠ []) :
    (x :: t).getLast? = t.getLast? := by
  cases t with
  | nil => exact absurd rfl h
  | cons a t2 => exact List.getLast?_cons_cons

theorem stripChars_core (core : List Char)
    (hf : ∀ x, core.head? = some x → isPyWS x = false)
    (hb : ∀ x, core.getLast? = some x → isPyWS x = false) :
    stripChars (core ++ ['\n']) = core := by
  cases core with
  | nil => rfl
  | cons a t =>
    unfold stripChars
    have h1 : ((a :: t) ++ ['\n']).dropWhile isPyWS = (a :: t) ++ ['\n'] := by
      apply dropWhile_eq_self_of_head
      intro x hx
      rw [show ((a :: t) ++ ['\n']).head? = some a from rfl] at hx
      have hax : a = x := Option.some.inj hx
      subst hax
      exact hf a rfl
    rw [h1]
    have h2 : ((a :: t) ++ ['\n']).reverse = '\n' :: (a :: t).reverse := by
      simp
    rw [h2, List.dropWhile_cons, show isPyWS '\n' = true from rfl]
    simp only [if_true]
    rw [dropWhile_eq_self_of_head]
    · simp
    · intro x hx
      rw [List.head?_reverse] at hx
      exact hb x hx

theorem renderLines_eq_join (lines : List (List Char)) (h : lines ≠ []) :
    renderLines lines = joinChar '\n' lines ++ ['\n'] := by
  induction lines with
  | nil => exact absurd rfl h
  | cons l ls ih =>
    cases ls with
    | nil => rfl
    | cons l2 ls2 =>
      show l ++ '\n' :: renderLines (l2 :: ls2) = joinChar '\n' (l :: l2 :: ls2) ++ ['\n']
      rw [ih (by simp)]
      rw [show joinChar '\n' (l :: l2 :: ls2) = l ++ '\n' :: joinChar '\n' (l2 :: ls2) from rfl]
      simp

theorem joinChar_head? (c : Char) (l : List Char) (ls : List (List Char))
    (h : l ≠ []) : (joinChar c (l :: ls)).head? = l.head? := by
  cases ls with
  | nil => rfl
  | cons l2 ls2 => exact head?_append_left l (c :: joinChar c (l2 :: ls2)) h

theorem joinChar_ne_nil (c : Char) (l : List Char) (ls : List (List Char))
    (h : l ≠ []) : joinChar c (l :: ls) ≠ [] := by
  intro he
  have hh := joinChar_head? c l ls h
  rw [he] at hh
  cases l with
  | nil => exact h rfl
  | cons a t => simp at hh

theorem joinChar_getLast?_mem (c : Char) (lines : List (List Char))
    (h : ∀ l ∈ lines, l ≠ []) (x : Char)
    (hx : (joinChar c lines).getLast? = some x) :
    ∃ l ∈ lines, l.getLast? = some x := by
  induction lines with
  | nil => simp [joinChar] at hx
  | cons l ls ih =>
    cases ls with
    | nil =>
      exact ⟨l, by simp, hx⟩
    | cons l2 ls2 =>
      rw [show joinChar c (l :: l2 :: ls2) = l ++ c :: joinChar c (l2 :: ls2) from rfl] at hx
      rw [getLast?_append_right _ _ (by simp)] at hx
      have hl2 : l2 ≠ [] := h l2 (by simp)
      have hj : joinChar c (l2 :: ls2) ≠ [] := joinChar_ne_nil c l2 ls2 hl2
      rw [getLast?_cons_of_ne _ _ hj] at hx
      obtain ⟨l', hl', hx'⟩ := ih (fun m hm => h m (List.mem_cons_of_mem _ hm)) hx
      exact ⟨l', List.mem_cons_of_mem _ hl', hx'⟩

theorem splitChar_joinChar (c : Char) (lines : List (List Char))
    (h : ∀ l ∈ lines, c ∉ l) (hne : lines ≠ []) :
    splitChar c (joinChar c lines) = lines := by
  induction lines with
  | nil => exact absurd rfl hne
  | cons l ls ih =>
    cases ls with
    | nil => exact splitChar_no_sep c l (h l (by simp))
    | cons l2 ls2 =>
      rw [show joinChar c (l :: l2 :: ls2) = l ++ c :: joinChar c (l2 :: ls2) from rfl]
      rw [splitChar_sep_append c l _ (h l (by simp))]
      rw [ih (fun m hm => h m (List.mem_cons_of_mem _ hm)) (by simp)]

theorem render_round (lines : List (List Char)) (hne : lines ≠ [])
    (hn : ∀ l ∈ lines, l ≠ [])
    (hhead : ∀ l ∈ lines, ∀ x, l.head? = some x → isPyWS x = false)
    (hlast : ∀ l ∈ lines, ∀ x, l.getLast? = some x → isPyWS x = false)
    (hnl : ∀ l ∈ lines, '\n' ∉ l) :
    splitChar '\n' (stripChars (renderLines lines)) = lines := by
  rw [renderLines_eq_join lines hne]
  rw [stripChars_core]
  · exact splitChar_joinChar '\n' lines hnl hne
  · intro x hx
    cases lines with
    | nil => exact absurd rfl hne
    | cons l ls =>
      rw [joinChar_head? '\n' l ls (hn l (by simp))] at hx
      exact hhead l (by simp) x hx
  · intro x hx
    obtain ⟨l, hl, hlx⟩ := joinChar_getLast?_mem '\n' lines hn x hx
    exact hlast l hl x hlx

theorem tokOk_spec (s : String) (h : tokOk s = true) :
    s.data ≠ [] ∧ ∀ c ∈ s.data, isPyWS c = false := by
  simp only [tokOk, Bool.and_eq_true, List.all_eq_true] at h
  obtain ⟨h1, h2⟩ := h
  constructor
  · intro he
    rw [he] at h1
    simp at h1
  · intro c hc
    have hx := h2 c hc
    simpa using hx

theorem str_bne_empty (l : List Char) (h : l ≠ []) :
    ((⟨l⟩ : String) != "") = true := by
  simp only [bne_iff_ne, ne_eq]
  intro he
  exact h (congrArg String.data he)

theorem hasSub_of_mem (c : Char) (l : List Char) (h : c ∈ l) :
    hasSub [c] l = true := by
  induction l with
  | nil => simp at h
  | cons x xs ih =>
    simp only [hasSub, Bool.or_eq_true]
    rcases List.mem_cons.mp h with h | h
    · subst h
      left
      simp [List.isPrefixOf]
    · exact Or.inr (ih h)

theorem keys_pyDictInsert (m : List (String × String)) (a v k : String)
    (h : k ∈ (pyDictInsert m a v).map Prod.fst) :
    k ∈ m.map Prod.fst ∨ k = a := by
  unfold pyDictInsert at h
  split at h
  · simp only [List.mem_map] at h
    obtain ⟨p, hp, hk⟩ := h
    obtain ⟨q, hq, hfq⟩ := hp
    by_cases hpa : (q.1 == a) = true
    · rw [if_pos hpa] at hfq
      subst hfq
      exact Or.inr hk.symm
    · rw [if_neg hpa] at hfq
      subst hfq
      exact Or.inl (List.mem_map.mpr ⟨q, hq, hk⟩)
  · simp only [List.map_append, List.mem_append, List.map_cons, List.map_nil,
      List.mem_cons, List.not_mem_nil, or_false] at h
    rcases h with h | h
    · exact Or.inl h
    · exact Or.inr h

theorem notMem_of_all_nonWS (s : String) (c : Char)
    (hws : isPyWS c = true) (h : ∀ x ∈ s.data, isPyWS x = false) :
    c ∉ s.data := by
  intro hm
  rw [h c hm] at hws
  simp at hws

theorem debianVersStep_line (m : List (String × String)) (p : String × String)
    (hp1 : tokOk p.1 = true) (hp2 : tokOk p.2 = true) :
    debianVersStep m ⟨p.1.data ++ '\t' :: p.2.data⟩ = pyDictInsert m p.1 p.2 := by
  obtain ⟨h1ne, h1w⟩ := tokOk_spec p.1 hp1
  obtain ⟨h2ne, h2w⟩ := tokOk_spec p.2 hp2
  have hnt1 : '\t' ∉ p.1.data := notMem_of_all_nonWS p.1 '\t' rfl h1w
  have hnt2 : '\t' ∉ p.2.data := notMem_of_all_nonWS p.2 '\t' rfl h2w
  unfold debianVersStep
  have hne : ((⟨p.1.data ++ '\t' :: p.2.data⟩ : String) != "") = true :=
    str_bne_empty _ (by simp)
  have hct : pyContains ⟨p.1.data ++ '\t' :: p.2.data⟩ "\t" = true := by
    unfold pyContains
    exact hasSub_of_mem '\t' _ (by simp)
  rw [hne, hct]
  simp only [Bool.and_self, if_true]
  have hsp : pySplitOn ⟨p.1.data ++ '\t' :: p.2.data⟩ '\t' = [p.1, p.2] := by
    unfold pySplitOn
    show (splitChar '\t' (p.1.data ++ '\t' :: p.2.data)).map _ = _
    rw [splitChar_sep_append '\t' _ _ hnt1, splitChar_no_sep '\t' _ hnt2]
    rfl
  rw [hsp]

theorem debianVers_keys_sub (db : List (String × String))
    (hdb : ∀ p ∈ db, tokOk p.1 = true ∧ tokOk p.2 = true) :
    ∀ m, ∀ k ∈ ((db.map (fun p => (⟨p.1.data ++ '\t' :: p.2.data⟩ : String))).foldl
        debianVersStep m).map Prod.fst,
      k ∈ m.map Prod.fst ∨ k ∈ db.map Prod.fst := by
  induction db with
  | nil =>
    intro m k hk
    exact Or.inl hk
  | cons p ps ih =>
    intro m k hk
    obtain ⟨hp1, hp2⟩ := hdb p (by simp)
    rw [List.map_cons, List.foldl_cons, debianVersStep_line m p hp1 hp2] at hk
    rcases ih (fun q hq => hdb q (List.mem_cons_of_mem _ hq)) (pyDictInsert m p.1 p.2) k hk
        with h | h
    · rcases keys_pyDictInsert m p.1 p.2 k h with h2 | h2
      · exact Or.inl h2
      · exact Or.inr (by simp [h2])
    · exact Or.inr (by simp only [List.map_cons, List.mem_cons]; exact Or.inr h)

theorem dbWf_spec (db : List (String × String)) (h : dbWf db = true) :
    db ≠ [] ∧ ∀ p ∈ db, tokOk p.1 = true ∧ tokOk p.2 = true := by
  simp only [dbWf, Bool.and_eq_true, List.all_eq_true] at h
  obtain ⟨h1, h2⟩ := h
  constructor
  · intro he
    rw [he] at h1
    simp at h1
  · intro p hp
    have := h2 p hp
    simpa [Bool.and_eq_true] using this

theorem debian_vers_lines (db : List (String × String)) (hdb : dbWf db = true) :
    pySplitOn (pyStrip (dpkgVersOut db)) '\n'
      = db.map (fun p => (⟨p.1.data ++ '\t' :: p.2.data⟩ : String)) := by
  obtain ⟨hne, htok⟩ := dbWf_spec db hdb
  show (splitChar '\n' (stripChars (renderLines
      (db.map (fun p => p.1.data ++ '\t' :: p.2.data))))).map _ = _
  rw [render_round]
  · rw [List.map_map]
    rfl
  · intro he
    exact hne (List.map_eq_nil_iff.mp he)
  · intro l hl
    obtain ⟨p, _, rfl⟩ := List.mem_map.mp hl
    simp
  · intro l hl x hx
    obtain ⟨p, hp, rfl⟩ := List.mem_map.mp hl
    obtain ⟨h1ne, h1w⟩ := tokOk_spec p.1 (htok p hp).1
    rw [head?_append_left _ _ h1ne] at hx
    exact h1w x (mem_of_head? _ _ hx)
  · intro l hl x hx
    obtain ⟨p, hp, rfl⟩ := List.mem_map.mp hl
    obtain ⟨h2ne, h2w⟩ := tokOk_spec p.2 (htok p hp).2
    rw [getLast?_append_right _ _ (by simp), getLast?_cons_of_ne _ _ h2ne] at hx
    exact h2w x (mem_of_getLast? _ _ hx)
  · intro l hl hmem
    obtain ⟨p, hp, rfl⟩ := List.mem_map.mp hl
    obtain ⟨h1ne, h1w⟩ := tokOk_spec p.1 (htok p hp).1
    obtain ⟨h2ne, h2w⟩ := tokOk_spec p.2 (htok p hp).2
    rcases List.mem_append.mp hmem with h | h
    · exact notMem_of_all_nonWS p.1 '\n' rfl h1w h
    · rcases List.mem_cons.mp h with h | h
      · simp at h
      · exact notMem_of_all_nonWS p.2 '\n' rfl h2w h

theorem debian_plain_lines (db : List (String × String)) (hdb : dbWf db = true) :
    debianGetInstalled (dpkgPlainOut db) = db.map Prod.fst := by
  obtain ⟨hne, htok⟩ := dbWf_spec db hdb
  show (splitChar '\n' (stripChars (renderLines (db.map (fun p => p.1.data))))).map _ = _
  rw [render_round]
  · rw [List.map_map]
    rfl
  · intro he
    exact hne (List.map_eq_nil_iff.mp he)
  · intro l hl
    obtain ⟨p, hp, rfl⟩ := List.mem_map.mp hl
    exact (tokOk_spec p.1 (htok p hp).1).1
  · intro l hl x hx
    obtain ⟨p, hp, rfl⟩ := List.mem_map.mp hl
    exact (tokOk_spec p.1 (htok p hp).1).2 x (mem_of_head? _ _ hx)
  · intro l hl x hx
    obtain ⟨p, hp, rfl⟩ := List.mem_map.mp hl
    exact (tokOk_spec p.1 (htok p hp).1).2 x (mem_of_getLast? _ _ hx)
  · intro l hl hmem
    obtain ⟨p, hp, rfl⟩ := List.mem_map.mp hl
    exact notMem_of_all_nonWS p.1 '\n' rfl (tokOk_spec p.1 (htok p hp).1).2 hmem

theorem voidVers_keys_sub (lines : List String) :
    ∀ (m : List (String × String)) (s : List String),
      voidInstalledLines lines = .ok s →
      ∀ k ∈ (lines.foldl voidVersLine m).map Prod.fst,
        k ∈ m.map Prod.fst ∨ k ∈ s := by
  induction lines with
  | nil =>
    intro m s hs k hk
    cases hs
    exact Or.inl hk
  | cons line rest ih =>
    intro m s hs k hk
    rw [List.foldl_cons] at hk
    by_cases hline : (line != "") = true
    · simp only [voidInstalledLines] at hs
      rw [if_pos hline] at hs
      cases hsp : (pySplitOn line ' ')[1]? with
      | none =>
        simp only [hsp] at hs
        exact Except.noConfusion hs
      | some pkgFull =>
        simp only [hsp] at hs
        cases hrest : voidInstalledLines rest with
        | error e =>
          simp only [hrest] at hs
          exact Except.noConfusion hs
        | ok s2 =>
          simp only [hrest] at hs
          have hss : s = (pyRsplit2 pkgFull '-').headD "" :: s2 := by
            cases hs
            rfl
          subst hss
          cases hrs : (pyRsplit2 pkgFull '-')[1]? with
          | none =>
            have hstep : voidVersLine m line = m := by
              unfold voidVersLine
              rw [if_pos hline]
              simp only [hsp, hrs]
            rw [hstep] at hk
            rcases ih m s2 hrest k hk with h | h
            · exact Or.inl h
            · exact Or.inr (List.mem_cons_of_mem _ h)
          | some v =>
            have hstep : voidVersLine m line
                = pyDictInsert m ((pyRsplit2 pkgFull '-').headD "") v := by
              unfold voidVersLine
              rw [if_pos hline]
              simp only [hsp, hrs]
            rw [hstep] at hk
            rcases ih (pyDictInsert m ((pyRsplit2 pkgFull '-').headD "") v) s2 hrest k hk
                with h | h
            · rcases keys_pyDictInsert m _ v k h with h2 | h2
              · exact Or.inl h2
              · exact Or.inr (by rw [h2]; simp)
            · exact Or.inr (List.mem_cons_of_mem _ h)
    · simp only [voidInstalledLines] at hs
      rw [if_neg hline] at hs
      have hstep : voidVersLine m line = m := by
        unfold voidVersLine
        rw [if_neg hline]
      rw [hstep] at hk
      exact ih m s hs k hk

/-- C5: every key of the versions mapping also belongs to the plain
installed-package set obtained from the same system state: for Debian both
queries are rendered from one dpkg database, for Void both parsers consume
one captured xbps-query output (provided the plain query returns at all). -/
theorem c5_subset_consistency (db : List (String × String)) (raw : String)
    (s : List String) (hdb : dbWf db = true)
    (hs : voidGetInstalled raw = .ok s) :
    (∀ k ∈ (debianWithVersions (dpkgVersOut db)).map Prod.fst,
        k ∈ debianGetInstalled (dpkgPlainOut db))
    ∧ (∀ k ∈ (voidWithVersions raw).map Prod.fst, k ∈ s) := by
  obtain ⟨hne, htok⟩ := dbWf_spec db hdb
  constructor
  · intro k hk
    unfold debianWithVersions at hk
    rw [debian_vers_lines db hdb] at hk
    rcases debianVers_keys_sub db htok [] k hk with h | h
    · simp at h
    · rw [debian_plain_lines db hdb]
      exact h
  · intro k hk
    unfold voidWithVersions at hk
    rcases voidVers_keys_sub (pySplitOn (pyStrip raw) '\n') [] s hs k hk with h | h
    · simp at h
    · exact h

theorem c5_witness :
    "vim" ∈ debianGetInstalled (dpkgPlainOut [("vim", "9.0")]) :=
  (c5_subset_consistency [("vim", "9.0")] "ii vim-9.0_1 x" ["vim"]
    (by decide) (by rfl)).1 "vim" (by decide)
